import Mathlib

/-!
Verification of the rename-planning logic of `exifdate_folder.py`.

The Python program renames image files to a `YYYYMMDD_HHMMSS.ext` name
derived from their EXIF metadata, avoiding collisions with a numeric
suffix, and applies the same renaming to a RAW/ORF sibling file.

This file gives a shallow embedding of the program:
  * the three module-level regexes (`image_pattern`, `exifdate_pattern`,
    `output_pattern`) are embedded as executable character-list matchers
    that follow Python `re.match` semantics for those concrete patterns,
    including the rule that `$` also matches just before one trailing
    newline;
  * `os.path` helpers (`splitext`, `split`, `join`) follow `posixpath`;
  * the filesystem is a list of entries (path, directory flag, file
    identity); `os.rename` rewrites the path of the matching entry;
  * `datetime.strptime(_, "%Y:%m:%d %H:%M:%S")` followed by
    `strftime("%Y%m%d_%H%M%S")` is embedded as `strptimeToFiledate`,
    returning `none` where Python raises `ValueError`;
  * `renameImgToExif` returns `none` where the Python function lets an
    exception escape (which terminates the whole run), and otherwise
    `some (fs, retcode)`.
-/

/-! ## Decimal rendering of naturals (Python `str(int)`) -/

/-- The character for a single decimal digit. -/
def digitChar (d : Nat) : Char :=
  match d with
  | 0 => '0' | 1 => '1' | 2 => '2' | 3 => '3' | 4 => '4'
  | 5 => '5' | 6 => '6' | 7 => '7' | 8 => '8' | _ => '9'

/-- Fuel-based accumulator loop producing the decimal digits of `n`
before `acc`.  Fuel `n + 1` always suffices. -/
def natStrAux : Nat → Nat → List Char → List Char
  | 0, _, acc => acc
  | fuel + 1, n, acc =>
    if n < 10 then digitChar n :: acc
    else natStrAux fuel (n / 10) (digitChar (n % 10) :: acc)

/-- Decimal rendering of a natural number, as Python `str` does. -/
def natStr (n : Nat) : String :=
  ⟨natStrAux (n + 1) n []⟩

/-- Value of a list of decimal digit characters. -/
def digitsVal (l : List Char) : Nat :=
  l.foldl (fun a c => a * 10 + (c.toNat - 48)) 0

/-- Zero-padded two-digit rendering, as `strftime` formats
the month, day, hour, minute and second fields. -/
def pad2 (n : Nat) : String :=
  if n < 10 then "0" ++ natStr n else natStr n

/-! ## The three module-level regexes (lines 16-18 of the source)

Python `re.match` anchors at the start of the string; `$` matches at the
end of the string or just before a single trailing newline; `.` does not
match a newline; `\w` is a letter, digit or underscore (ASCII scope).
-/

/-- Python `$` semantics: the anchored core pattern matches the whole
list, or the list ends in a newline and the core matches all but that
final newline. -/
def dollarMatch (core : List Char → Bool) (l : List Char) : Bool :=
  core l || (l.getLast? == some '\n' && core l.dropLast)

/-- A `\w` word character (ASCII scope of Python `\w`). -/
def isWordChar (c : Char) : Bool :=
  c.isAlphanum || c == '_'

/-- Anchored core of `output_pattern`, the regex
`^\d(8)_\d(6)\.\w+$` (line 18): eight digits, an underscore, six
digits, a dot, then one or more word characters. -/
def output_core (l : List Char) : Bool :=
  ((l.take 8).length == 8)
  && ((l.take 8).all Char.isDigit)
  && ((l.drop 8).take 1 == ['_'])
  && (((l.drop 9).take 6).length == 6)
  && (((l.drop 9).take 6).all Char.isDigit)
  && ((l.drop 15).take 1 == ['.'])
  && (!(l.drop 16).isEmpty)
  && ((l.drop 16).all isWordChar)

/-- Boolean form of `output_pattern.match(s)` of the source. -/
def output_pattern_match (s : String) : Bool :=
  dollarMatch output_core s.data

/-- Anchored core of `exifdate_pattern`, the regex
`^\d(4):\d(2):\d(2) \d(2):\d(2):\d(2)$` (line 17). -/
def exifdate_core (l : List Char) : Bool :=
  (l.length == 19)
  && ((l.take 4).all Char.isDigit)
  && ((l.drop 4).take 1 == [':'])
  && (((l.drop 5).take 2).all Char.isDigit)
  && ((l.drop 7).take 1 == [':'])
  && (((l.drop 8).take 2).all Char.isDigit)
  && ((l.drop 10).take 1 == [' '])
  && (((l.drop 11).take 2).all Char.isDigit)
  && ((l.drop 13).take 1 == [':'])
  && (((l.drop 14).take 2).all Char.isDigit)
  && ((l.drop 16).take 1 == [':'])
  && (((l.drop 17).take 2).all Char.isDigit)

/-- Boolean form of `exifdate_pattern.match(s)` of the source. -/
def exifdate_pattern_match (s : String) : Bool :=
  dollarMatch exifdate_core s.data

/-- The image extensions accepted by `image_pattern` (line 16). -/
def image_ext_list : List (List Char) :=
  [['j', 'p', 'g'], ['j', 'p', 'e', 'g'], ['p', 'n', 'g'], ['g', 'i', 'f']]

/-- Anchored core of `image_pattern`, the case-insensitive regex
matching any string of non-newline characters followed by a dot and one
of the accepted image extensions. -/
def image_core (l : List Char) : Bool :=
  image_ext_list.any (fun e =>
    let suf := '.' :: e
    decide (suf.length ≤ l.length)
    && ((l.map Char.toLower).drop (l.length - suf.length) == suf)
    && ((l.take (l.length - suf.length)).all (fun c => !(c == '\n'))))

/-- Boolean form of `image_pattern.match(s)` of the source. -/
def image_pattern_match (s : String) : Bool :=
  dollarMatch image_core s.data

/-! ## `os.path` helpers (posixpath semantics) -/

/-- Index of the last occurrence of `c` in `l`, if any
(Python `str.rfind`, with `none` for the -1 result). -/
def lastIndexOf (l : List Char) (c : Char) : Option Nat :=
  (List.range l.length).foldl
    (fun acc i => if l.get? i == some c then some i else acc) none

/-- Embedding of `os.path.splitext`: split off the extension at the last dot of the
final path component, except when that component consists of leading
dots only. -/
def splitext (p : String) : String × String :=
  let l := p.data
  match lastIndexOf l '.' with
  | none => (p, "")
  | some d =>
    let start := match lastIndexOf l '/' with
                 | none => 0
                 | some s => s + 1
    if start ≤ d && ((l.drop start).take (d - start)).any (fun c => !(c == '.'))
    then (⟨l.take d⟩, ⟨l.drop d⟩)
    else (p, "")

/-- Embedding of `os.path.split`: head and tail around the last slash, stripping
trailing slashes from the head unless it is all slashes. -/
def os_split (p : String) : String × String :=
  let l := p.data
  let i := match lastIndexOf l '/' with
           | none => 0
           | some s => s + 1
  let head := l.take i
  let tail := l.drop i
  let head2 := if !head.isEmpty && head.any (fun c => !(c == '/'))
               then (head.reverse.dropWhile (fun c => c == '/')).reverse
               else head
  (⟨head2⟩, ⟨tail⟩)

/-- Embedding of `os.path.join` for two components: the second wins if absolute,
otherwise a slash separates them unless one is already there. -/
def os_join (a b : String) : String :=
  if b.data.take 1 == ['/'] then b
  else if a.data.isEmpty || a.data.getLast? == some '/' then a ++ b
  else a ++ "/" ++ b

/-- Python `str.lower` (ASCII scope). -/
def lowerStr (s : String) : String :=
  ⟨s.data.map Char.toLower⟩

/-! ## Filesystem model

The filesystem is a finite list of entries.  Each entry has a path, a
flag saying whether it is a directory, and an identity `fid` standing
for its content.  `os.rename` moves the entry at the source path to the
destination path and changes nothing else. -/

/-- One filesystem entry. -/
structure Entry where
  path : String
  isDir : Bool
  fid : Nat
deriving DecidableEq

/-- The filesystem: a finite list of entries. -/
abbrev FS := List Entry

/-- Embedding of `os.path.exists`. -/
def pathExists (fs : FS) (p : String) : Bool :=
  fs.any (fun e => e.path == p)

/-- Embedding of `os.path.isdir`. -/
def isdirAt (fs : FS) (p : String) : Bool :=
  fs.any (fun e => e.path == p && e.isDir)

/-- Embedding of `os.path.isfile`. -/
def isfileAt (fs : FS) (p : String) : Bool :=
  fs.any (fun e => e.path == p && !e.isDir)

/-- The collision test of lines 116 and 150:
`os.path.exists(n) or os.path.isdir(n)`. -/
def occupied (fs : FS) (p : String) : Bool :=
  pathExists fs p || isdirAt fs p

/-- Embedding of `os.rename src dst`: the entry whose path is `src` moves to `dst`;
every other entry is untouched. -/
def fsRename (fs : FS) (src dst : String) : FS :=
  fs.map (fun e => if e.path == src then Entry.mk dst e.isDir e.fid else e)

/-- The name of `p` as a direct child of directory `d`, when `p` lies
directly inside `d`. -/
def childName (d p : String) : Option String :=
  let dl := d.data
  let pl := p.data
  if pl.take (dl.length + 1) == dl ++ ['/'] then
    let rest := pl.drop (dl.length + 1)
    if !rest.isEmpty && rest.all (fun c => !(c == '/')) then some ⟨rest⟩
    else none
  else none

/-- Embedding of `os.listdir d`: the names of the entries directly inside `d`, in
filesystem-list order (standing for the unspecified listing order). -/
def listdirNames (fs : FS) (d : String) : List String :=
  fs.filterMap (fun e => childName d e.path)

/-- Embedding of `getfile_insensitive` (lines 164-171): scan the directory of `path`
and return the first file whose lower-cased name equals the lower-cased
requested name. -/
def getfile_insensitive (fs : FS) (path : String) : Option String :=
  let dt := os_split path
  let d := if dt.1 = "" then "." else dt.1
  let fl := lowerStr dt.2
  match (listdirNames fs d).find?
      (fun f => isfileAt fs (os_join d f) && lowerStr f == fl) with
  | some f => some (os_join d f)
  | none => none

/-! ## Tag scan (lines 20-24 and 90-101) -/

/-- The ordered tag preference list `date_tags` (lines 20-24). -/
def date_tags : List String :=
  ["EXIF DateTimeOriginal", "EXIF DateTimeDigitized", "Image DateTime"]

/-- The raw extensions probed for a sibling file (line 26). -/
def possible_raw_extensions : List String :=
  ["ORF", "RAW"]

/-- Dictionary lookup `tags[tag]` on the association list of tag names
to values returned by `exifread.process_file`. -/
def lookupTag (tags : List (String × String)) (t : String) : Option String :=
  (tags.find? (fun kv => kv.1 == t)).map (fun kv => kv.2)

/-- The loop of lines 90-101: for each tag of `date_tags` present in
`tags`, `exifdate` is assigned its value and `foundKey` is set.  The
body then tests `exifdate_pattern` but only executes `continue` on a
failed test, which is the last statement of the iteration anyway, so
the test changes nothing: the value of the last present tag stays
assigned whether or not it matches the pattern.  The result is `some`
of that value, `none` when no listed tag is present (`foundKey` stays
false). -/
def scanDateTags (tags : List (String × String)) : Option String :=
  date_tags.foldl
    (fun exifdate tag =>
      match lookupTag tags tag with
      | some v => some v
      | none => exifdate)
    none

/-! ## `datetime.strptime` / `strftime` (lines 108-110)

`datetime.strptime(s, "%Y:%m:%d %H:%M:%S")` accepts exactly four digits
for the year and one or two digits for the other fields, requires the
whole string to be consumed, and then validates the calendar ranges
(year at least 1, month 1-12, day within the month, hour below 24,
minute and second below 60 — `datetime` rejects leap seconds).  On
failure it raises `ValueError`, which nothing in the program catches;
the embedding returns `none` there.  `strftime("%Y%m%d_%H%M%S")`
zero-pads the two-digit fields. -/

/-- Split a leading run of decimal digits off a character list. -/
def takeDigitsSplit (l : List Char) : List Char × List Char :=
  (l.takeWhile Char.isDigit, l.dropWhile Char.isDigit)

/-- Parse the `%Y` field: exactly four digits. -/
def parseYear (l : List Char) : Option (Nat × List Char) :=
  let p := takeDigitsSplit l
  if p.1.length = 4 then some (digitsVal p.1, p.2) else none

/-- Parse a one-or-two-digit field (`%m`, `%d`, `%H`, `%M`, `%S`). -/
def parseNum2 (l : List Char) : Option (Nat × List Char) :=
  let p := takeDigitsSplit l
  if p.1.length = 1 || p.1.length = 2 then some (digitsVal p.1, p.2) else none

/-- Consume one expected literal character. -/
def expectChar (c : Char) (l : List Char) : Option (List Char) :=
  match l with
  | [] => none
  | x :: xs => if x = c then some xs else none

/-- Days in a month of the proleptic Gregorian calendar. -/
def monthLength (y m : Nat) : Nat :=
  if m = 2 then
    (if (y % 4 = 0 && !(y % 100 = 0)) || y % 400 = 0 then 29 else 28)
  else if m = 4 || m = 6 || m = 9 || m = 11 then 30
  else 31

/-- The composition of lines 108-110: parse the EXIF date string and
format the filename timestamp, `none` where `strptime` or the
`datetime` constructor raises. -/
def strptimeToFiledate (s : String) : Option String :=
  (parseYear s.data).bind (fun py =>
  (expectChar ':' py.2).bind (fun r1 =>
  (parseNum2 r1).bind (fun pm =>
  (expectChar ':' pm.2).bind (fun r2 =>
  (parseNum2 r2).bind (fun pd =>
  (expectChar ' ' pd.2).bind (fun r3 =>
  (parseNum2 r3).bind (fun ph =>
  (expectChar ':' ph.2).bind (fun r4 =>
  (parseNum2 r4).bind (fun pmin =>
  (expectChar ':' pmin.2).bind (fun r5 =>
  (parseNum2 r5).bind (fun ps =>
  if ps.2.isEmpty
     && decide (1 ≤ py.1) && decide (1 ≤ pm.1) && decide (pm.1 ≤ 12)
     && decide (1 ≤ pd.1) && decide (pd.1 ≤ monthLength py.1 pm.1)
     && decide (ph.1 ≤ 23) && decide (pmin.1 ≤ 59) && decide (ps.1 ≤ 59)
  then some (natStr py.1 ++ pad2 pm.1 ++ pad2 pd.1 ++ "_"
             ++ pad2 ph.1 ++ pad2 pmin.1 ++ pad2 ps.1)
  else none)))))))))))

/-! ## Collision-avoidance loop (lines 115-118 and 145-152) -/

/-- The candidate filename for collision counter `k`: the plain target
for `k = 0`, and the `_k`-suffixed target otherwise, exactly as lines
113, 118 and 145-148 build it. -/
def nameAt (base ext : String) (k : Nat) : String :=
  if k = 0 then base ++ ext else base ++ "_" ++ natStr k ++ ext

/-- The `while os.path.exists(...) or os.path.isdir(...)` loop: starting
from counter `s` and candidate `cur`, increment the counter and rebuild
the candidate until it is free.  The recursion is on fuel; any fuel
beyond the first free counter gives the result of the loop. -/
def collisionLoop (fs : FS) (base ext : String) : Nat → Nat → String → Nat × String
  | 0, s, cur => (s, cur)
  | fuel + 1, s, cur =>
    if pathExists fs cur || isdirAt fs cur then
      collisionLoop fs base ext fuel (s + 1) (base ++ "_" ++ natStr (s + 1) ++ ext)
    else (s, cur)

/-- The raw-sibling probe of lines 131-137: try each extension of
`possible_raw_extensions` in order and keep the first hit of
`getfile_insensitive`. -/
def findRawFile (fs : FS) (filename_wo_ext : String) : Option String :=
  possible_raw_extensions.foldl
    (fun acc ext =>
      match acc with
      | some r => some r
      | none => getfile_insensitive fs (filename_wo_ext ++ "." ++ ext))
    none

/-! ## `renameImgToExif` (lines 65-160) -/

/-- The per-file processor `renameImgToExif`.  Inputs beyond the three
path arguments of the source: `tags` is what `exifread.process_file`
returns for this file, `renameOk` tells which `os.rename` calls
succeed (the source catches any failure and returns `False`), and `fs`
is the filesystem.  Lines 68-75 only build the path printed in the
progress message and are omitted.  The result is `none` when the
Python code lets an exception escape (the `ValueError` of
`strptime` on an unparseable tag value), and otherwise `some` of the
filesystem after the call together with the return code. -/
def renameImgToExif (filename folder fullpath : String)
    (tags : List (String × String))
    (renameOk : String → String → Bool)
    (fs : FS) : Option (FS × Bool) :=
  if output_pattern_match filename then some (fs, true)
  else if tags.isEmpty then some (fs, false)
  else
    match scanDateTags tags with
    | none => some (fs, false)
    | some exifdate =>
      match strptimeToFiledate exifdate with
      | none => none
      | some filedate =>
        let se := splitext fullpath
        let filename_wo_ext := se.1
        let file_extension := lowerStr se.2
        let base := os_join folder filedate
        let res := collisionLoop fs base file_extension (fs.length + 1) 0
                     (base ++ file_extension)
        let suffix := res.1
        let new_filename := res.2
        if renameOk fullpath new_filename then
          let fs1 := fsRename fs fullpath new_filename
          match findRawFile fs1 filename_wo_ext with
          | none => some (fs1, true)
          | some raw_file =>
            let rse := splitext raw_file
            let raw_file_extension := lowerStr rse.2
            let rres := collisionLoop fs1 base raw_file_extension
                          (fs1.length + 1) suffix
                          (nameAt base raw_file_extension suffix)
            let new_raw_filename := rres.2
            if renameOk raw_file new_raw_filename then
              some (fsRename fs1 raw_file new_raw_filename, true)
            else some (fs1, false)
        else some (fs, false)

/-! ## The driver loop and argument resolution (`main`, lines 203-251) -/

/-- One record of `filelist`: filename, containing folder, full path. -/
structure FileRec where
  filename : String
  folder : String
  fullpath : String

/-- The loop of lines 243-251: process each record in order,
accumulating the full paths of failed files in `pending`.  A record
whose processing raises (result `none`) terminates the whole run with
the exception, so the result of the run is `none`. -/
def processRun (tagsFor : String → List (String × String))
    (renameOk : String → String → Bool) :
    List FileRec → FS → Option (FS × List String)
  | [], fs => some (fs, [])
  | r :: rest, fs =>
    match renameImgToExif r.filename r.folder r.fullpath
        (tagsFor r.fullpath) renameOk fs with
    | none => none
    | some (fs1, ok) =>
      match processRun tagsFor renameOk rest fs1 with
      | none => none
      | some (fs2, pending) =>
        some (fs2, if ok then pending else r.fullpath :: pending)

/-- What the command-line argument is on the filesystem. -/
inductive ArgKind where
  | argDir : ArgKind
  | argFile : ArgKind
  | neither : ArgKind
deriving DecidableEq

/-- Argument resolution of `main` (lines 203-240), up to the point
where the file list is handed to the processing loop.  `hasArg` is
whether `sys.argv` carries a parameter, `kind` what the parameter is on
disk, `confirmYes` the answer of the user to the confirmation prompt, and
`walkFiles` what `buildFileList` returns for a directory argument.
`Except.error n` is `sys.exit(n)` before any file is processed;
`Except.ok l` proceeds to the processing loop on `l`. -/
def mainResolve (hasArg : Bool) (param : String) (kind : ArgKind)
    (confirmYes : Bool) (walkFiles : List FileRec) : Except Nat (List FileRec) :=
  if !hasArg then Except.error 1
  else
    match kind with
    | ArgKind.argDir =>
      if confirmYes then
        (if walkFiles.isEmpty then Except.error 0 else Except.ok walkFiles)
      else Except.error 0
    | ArgKind.argFile =>
      if !image_pattern_match param then Except.error 2
      else if confirmYes then
        Except.ok [FileRec.mk param (os_split param).1 param]
      else Except.error 0
    | ArgKind.neither => Except.error 0

/-! ## Concrete scenario constants used by the witnesses -/

/-- The metadata used by the concrete rename scenarios. -/
def tagsStd : List (String × String) :=
  [("EXIF DateTimeOriginal", "2020:02:16 13:19:03")]

/-- Metadata with an earlier tag whose value matches
`exifdate_pattern` and a later tag whose value does not. -/
def tagsC1 : List (String × String) :=
  [("EXIF DateTimeOriginal", "2020:02:16 13:19:03"),
   ("Image DateTime", "2021:1:1 00:00:00")]

/-- The filesystem of the C4 witness scenario: the source image plus
the plain target name and the `_1` target name already in place. -/
def fsC4 : FS :=
  [Entry.mk "ph/IMG_0001.JPG" false 1,
   Entry.mk "ph/20200216_131903.jpg" false 2,
   Entry.mk "ph/20200216_131903_1.jpg" false 3]

/-- Filesystem for the first C5 scenario: image and raw sibling, with
the plain and `_1` image targets taken and the plain raw target taken,
while the `_1` raw target is free. -/
def fsC5a : FS :=
  [Entry.mk "ph/IMG_0001.JPG" false 1,
   Entry.mk "ph/IMG_0001.ORF" false 2,
   Entry.mk "ph/20200216_131903.jpg" false 3,
   Entry.mk "ph/20200216_131903_1.jpg" false 4,
   Entry.mk "ph/20200216_131903.orf" false 5]

/-- Filesystem for the second C5 scenario: as `fsC5a`, with the `_2`
raw target also taken. -/
def fsC5b : FS :=
  [Entry.mk "ph/IMG_0001.JPG" false 1,
   Entry.mk "ph/IMG_0001.ORF" false 2,
   Entry.mk "ph/20200216_131903.jpg" false 3,
   Entry.mk "ph/20200216_131903_1.jpg" false 4,
   Entry.mk "ph/20200216_131903.orf" false 5,
   Entry.mk "ph/20200216_131903_2.orf" false 6]

/-- Filesystem for the C7 scenarios: an image with a raw sibling. -/
def fsC7 : FS :=
  [Entry.mk "ph/IMG_0001.JPG" false 1,
   Entry.mk "ph/IMG_0001.ORF" false 2]

/-! ## Lemmas about the decimal rendering -/

theorem natStrAux_append : ∀ (n fuel : Nat) (acc : List Char), n < fuel →
    natStrAux fuel n acc = natStrAux fuel n [] ++ acc := by
  intro n
  induction n using Nat.strong_induction_on with
  | _ n ih =>
    intro fuel acc h
    match fuel with
    | fuel + 1 =>
      by_cases h10 : n < 10
      · simp [natStrAux, h10]
      · have hd : n / 10 < n := Nat.div_lt_self (by omega) (by omega)
        have hf : n / 10 < fuel := by omega
        simp only [natStrAux, if_neg h10]
        rw [ih (n / 10) hd fuel (digitChar (n % 10) :: acc) hf,
            ih (n / 10) hd fuel [digitChar (n % 10)] hf]
        simp

theorem digitsVal_append_one (l : List Char) (c : Char) :
    digitsVal (l ++ [c]) = digitsVal l * 10 + (c.toNat - 48) := by
  simp [digitsVal, List.foldl_append]

theorem digitChar_toNat (d : Nat) (h : d < 10) : (digitChar d).toNat = 48 + d := by
  interval_cases d <;> rfl

theorem natStrAux_val : ∀ (n fuel : Nat), n < fuel →
    digitsVal (natStrAux fuel n []) = n := by
  intro n
  induction n using Nat.strong_induction_on with
  | _ n ih =>
    intro fuel h
    match fuel with
    | fuel + 1 =>
      by_cases h10 : n < 10
      · simp [natStrAux, h10, digitsVal, digitChar_toNat n h10]
      · have hd : n / 10 < n := Nat.div_lt_self (by omega) (by omega)
        have hf : n / 10 < fuel := by omega
        simp only [natStrAux, if_neg h10]
        rw [natStrAux_append (n / 10) fuel [digitChar (n % 10)] hf,
            digitsVal_append_one, ih (n / 10) hd fuel hf,
            digitChar_toNat (n % 10) (Nat.mod_lt n (by omega))]
        omega

theorem natStr_val (n : Nat) : digitsVal (natStr n).data = n :=
  natStrAux_val n (n + 1) (Nat.lt_succ_self n)

theorem natStr_data_injective (m n : Nat)
    (h : (natStr m).data = (natStr n).data) : m = n := by
  have := congrArg digitsVal h
  rwa [natStr_val, natStr_val] at this

theorem natStrAux_ne_nil : ∀ (n fuel : Nat), n < fuel →
    natStrAux fuel n [] ≠ [] := by
  intro n
  induction n using Nat.strong_induction_on with
  | _ n ih =>
    intro fuel h
    match fuel with
    | fuel + 1 =>
      by_cases h10 : n < 10
      · simp [natStrAux, h10]
      · have hf : n / 10 < fuel := by
          have : n / 10 < n := Nat.div_lt_self (by omega) (by omega)
          omega
        simp only [natStrAux, if_neg h10]
        rw [natStrAux_append (n / 10) fuel [digitChar (n % 10)] hf]
        simp

theorem natStr_length_pos (n : Nat) : 0 < (natStr n).length := by
  have h := natStrAux_ne_nil n (n + 1) (Nat.lt_succ_self n)
  have hl : (natStr n).length = (natStrAux (n + 1) n []).length := rfl
  rw [hl]
  exact List.length_pos.mpr h

/-! ## Lemmas about the candidate names -/

theorem nameAt_injective (base ext : String) :
    Function.Injective (nameAt base ext) := by
  intro j k h
  unfold nameAt at h
  by_cases hj : j = 0 <;> by_cases hk : k = 0
  · rw [hj, hk]
  · exfalso
    rw [if_pos hj, if_neg hk] at h
    have := congrArg String.length h
    simp only [String.length_append] at this
    have h1 := natStr_length_pos k
    have h2 : ("_" : String).length = 1 := rfl
    omega
  · exfalso
    rw [if_neg hj, if_pos hk] at h
    have := congrArg String.length h
    simp only [String.length_append] at this
    have h1 := natStr_length_pos j
    have h2 : ("_" : String).length = 1 := rfl
    omega
  · rw [if_neg hj, if_neg hk] at h
    have hd := congrArg String.data h
    simp only [String.data_append, List.append_assoc] at hd
    have hd2 := List.append_cancel_left hd
    have hd3 := List.append_cancel_left hd2
    have hd4 := List.append_cancel_right hd3
    exact natStr_data_injective j k hd4

/-- Any path that passes the collision test of line 116 is the path of
some entry of the filesystem. -/
theorem occupied_mem_paths (fs : FS) (p : String) (h : occupied fs p = true) :
    p ∈ fs.map Entry.path := by
  unfold occupied pathExists isdirAt at h
  simp only [Bool.or_eq_true, List.any_eq_true, beq_iff_eq, Bool.and_eq_true] at h
  rcases h with ⟨e, he, hp⟩ | ⟨e, he, hp, _⟩ <;>
    exact List.mem_map.mpr ⟨e, he, by rw [hp]⟩

/-- If every candidate name with counter in `[s, k)` is occupied, then
`k - s` is at most the number of filesystem entries: the collision loop
cannot run longer than the filesystem is large. -/
theorem occupied_count_le (fs : FS) (base ext : String) (s k : Nat)
    (h : ∀ j, s ≤ j → j < k → occupied fs (nameAt base ext j) = true) :
    k - s ≤ fs.length := by
  classical
  have hsub : (Finset.Ico s k).image (nameAt base ext) ⊆
      (fs.map Entry.path).toFinset := by
    intro p hp
    rcases Finset.mem_image.mp hp with ⟨j, hj, rfl⟩
    rcases Finset.mem_Ico.mp hj with ⟨hj1, hj2⟩
    exact List.mem_toFinset.mpr (occupied_mem_paths fs _ (h j hj1 hj2))
  have hcard := Finset.card_le_card hsub
  rw [Finset.card_image_of_injOn
    (fun x _ y _ hxy => nameAt_injective base ext hxy)] at hcard
  rw [Nat.card_Ico] at hcard
  calc k - s ≤ (fs.map Entry.path).toFinset.card := hcard
    _ ≤ (fs.map Entry.path).length := List.toFinset_card_le _
    _ = fs.length := List.length_map _ _

/-- Specification of the collision loop: started at counter `s` on the
candidate name for `s`, with every candidate in `[s, k)` occupied and
the candidate for `k` free, the loop stops at `k` — provided the fuel
covers the `k - s` steps, which `occupied_count_le` guarantees for the
fuel used by `renameImgToExif`. -/
theorem collisionLoop_spec (fs : FS) (base ext : String) (k : Nat) :
    ∀ (fuel s : Nat), s ≤ k → k - s < fuel →
    (∀ j, s ≤ j → j < k → occupied fs (nameAt base ext j) = true) →
    occupied fs (nameAt base ext k) = false →
    collisionLoop fs base ext fuel s (nameAt base ext s)
      = (k, nameAt base ext k) := by
  intro fuel
  induction fuel with
  | zero => intro s hs hf _ _; omega
  | succ fuel ih =>
    intro s hsk hfuel htaken hfree
    by_cases hsk0 : s = k
    · subst hsk0
      have hcond : (pathExists fs (nameAt base ext s)
          || isdirAt fs (nameAt base ext s)) = false := hfree
      simp [collisionLoop, hcond]
    · have hslt : s < k := by omega
      have hocc : (pathExists fs (nameAt base ext s)
          || isdirAt fs (nameAt base ext s)) = true :=
        htaken s le_rfl hslt
      have hname : base ++ "_" ++ natStr (s + 1) ++ ext
          = nameAt base ext (s + 1) := by
        simp [nameAt]
      simp only [collisionLoop, hocc, if_true, hname]
      exact ih (s + 1) (by omega) (by omega)
        (fun j hj1 hj2 => htaken j (by omega) hj2) hfree

/-! ## Frame lemmas: a rename changes paths only -/

theorem fsRename_map_fid (fs : FS) (src dst : String) :
    (fsRename fs src dst).map Entry.fid = fs.map Entry.fid := by
  unfold fsRename
  rw [List.map_map]
  apply List.map_congr_left
  intro e _
  by_cases h : e.path == src <;> simp [h, Function.comp]

theorem fsRename_map_isDir (fs : FS) (src dst : String) :
    (fsRename fs src dst).map Entry.isDir = fs.map Entry.isDir := by
  unfold fsRename
  rw [List.map_map]
  apply List.map_congr_left
  intro e _
  by_cases h : e.path == src <;> simp [h, Function.comp]

/-- Every filesystem a call of `renameImgToExif` can return is the
input filesystem after zero, one or two renames — the only mutating
statements in the function are the two `os.rename` calls of lines 123
and 155. -/
theorem renameImgToExif_fs_cases (filename folder fullpath : String)
    (tags : List (String × String)) (renameOk : String → String → Bool)
    (fs fs1 : FS) (b : Bool)
    (h : renameImgToExif filename folder fullpath tags renameOk fs = some (fs1, b)) :
    fs1 = fs ∨ (∃ dst, fs1 = fsRename fs fullpath dst)
      ∨ (∃ dst src2 dst2, fs1 = fsRename (fsRename fs fullpath dst) src2 dst2) := by
  unfold renameImgToExif at h
  split at h
  · simp only [Option.some.injEq, Prod.mk.injEq] at h
    exact Or.inl h.1.symm
  · split at h
    · simp only [Option.some.injEq, Prod.mk.injEq] at h
      exact Or.inl h.1.symm
    · split at h
      · simp only [Option.some.injEq, Prod.mk.injEq] at h
        exact Or.inl h.1.symm
      · split at h
        · exact absurd h (by simp)
        · simp only [] at h
          split at h
          · split at h
            · simp only [Option.some.injEq, Prod.mk.injEq] at h
              exact Or.inr (Or.inl ⟨_, h.1.symm⟩)
            · split at h
              · simp only [Option.some.injEq, Prod.mk.injEq] at h
                exact Or.inr (Or.inr ⟨_, _, _, h.1.symm⟩)
              · simp only [Option.some.injEq, Prod.mk.injEq] at h
                exact Or.inr (Or.inl ⟨_, h.1.symm⟩)
          · simp only [Option.some.injEq, Prod.mk.injEq] at h
            exact Or.inl h.1.symm

/-- Content and directory flags after a call of `renameImgToExif` are
those of the input filesystem, entry by entry. -/
theorem renameImgToExif_frame (filename folder fullpath : String)
    (tags : List (String × String)) (renameOk : String → String → Bool)
    (fs fs1 : FS) (b : Bool)
    (h : renameImgToExif filename folder fullpath tags renameOk fs = some (fs1, b)) :
    fs1.map Entry.fid = fs.map Entry.fid
      ∧ fs1.map Entry.isDir = fs.map Entry.isDir := by
  rcases renameImgToExif_fs_cases filename folder fullpath tags renameOk fs fs1 b h with
    rfl | ⟨d, rfl⟩ | ⟨d, s2, d2, rfl⟩
  · exact ⟨rfl, rfl⟩
  · exact ⟨fsRename_map_fid fs fullpath d, fsRename_map_isDir fs fullpath d⟩
  · constructor
    · rw [fsRename_map_fid, fsRename_map_fid]
    · rw [fsRename_map_isDir, fsRename_map_isDir]

/-- Content and directory flags after a whole run, entry by entry. -/
theorem processRun_frame (tagsFor : String → List (String × String))
    (renameOk : String → String → Bool) :
    ∀ (records : List FileRec) (fs fs' : FS) (pending : List String),
    processRun tagsFor renameOk records fs = some (fs', pending) →
    fs'.map Entry.fid = fs.map Entry.fid
      ∧ fs'.map Entry.isDir = fs.map Entry.isDir := by
  intro records
  induction records with
  | nil =>
    intro fs fs' pending h
    simp only [processRun, Option.some.injEq, Prod.mk.injEq] at h
    rw [← h.1]
    exact ⟨rfl, rfl⟩
  | cons r rest ih =>
    intro fs fs' pending h
    unfold processRun at h
    rcases hren : renameImgToExif r.filename r.folder r.fullpath
        (tagsFor r.fullpath) renameOk fs with _ | ⟨fs1, ok⟩
    · rw [hren] at h; exact absurd h (by simp)
    · rw [hren] at h
      simp only [] at h
      rcases hrest : processRun tagsFor renameOk rest fs1 with _ | ⟨fs2, pend⟩
      · rw [hrest] at h; exact absurd h (by simp)
      · rw [hrest] at h
        simp only [Option.some.injEq, Prod.mk.injEq] at h
        have h1 := renameImgToExif_frame r.filename r.folder r.fullpath
          (tagsFor r.fullpath) renameOk fs fs1 ok hren
        have h2 := ih fs1 fs2 pend hrest
        rw [← h.1]
        exact ⟨h2.1.trans h1.1, h2.2.trans h1.2⟩

/-! ## Claim theorems -/

/-- In a character list made of eight characters, an underscore, six
characters and another underscore before a tail, dropping 15 characters
lands on the second underscore. -/
theorem suffixed_drop15 (a b rest : List Char)
    (ha : a.length = 8) (hb : b.length = 6) :
    (a ++ ('_' :: (b ++ ('_' :: rest)))).drop 15 = '_' :: rest := by
  have hsh : a ++ ('_' :: (b ++ ('_' :: rest)))
      = (a ++ ('_' :: b)) ++ ('_' :: rest) := by
    simp [List.append_assoc]
  rw [hsh]
  exact List.drop_left' (by simp [ha, hb])

/-- The matcher `output_core` rejects any name whose sixteenth character is an
underscore instead of the dot the pattern demands there. -/
theorem output_core_suffixed (a b rest : List Char)
    (ha : a.length = 8) (hb : b.length = 6) :
    output_core (a ++ ('_' :: (b ++ ('_' :: rest)))) = false := by
  unfold output_core
  rw [suffixed_drop15 a b rest ha hb]
  simp

/-- Claim C6: for every candidate file whose name already matches the
canonical output pattern `YYYYMMDD_HHMMSS.ext` (case-insensitive
extension), processing is a no-op: whatever the metadata and whatever
renames would succeed, the filesystem is returned unchanged and the
return code is success, so the file is not marked failed. -/
theorem c6_canonical_name_is_noop
    (filename folder fullpath : String) (tags : List (String × String))
    (renameOk : String → String → Bool) (fs : FS)
    (h : output_pattern_match filename = true) :
    renameImgToExif filename folder fullpath tags renameOk fs = some (fs, true) := by
  simp [renameImgToExif, h]

/-- Witness for C6 at a concrete canonical filename. -/
theorem c6_witness :
    output_pattern_match "20200216_131903.jpg" = true
      ∧ renameImgToExif "20200216_131903.jpg" "ph" "ph/20200216_131903.jpg"
          [("EXIF DateTimeOriginal", "2020:02:16 13:19:03")] (fun _ _ => true)
          [Entry.mk "ph/20200216_131903.jpg" false 1]
        = some ([Entry.mk "ph/20200216_131903.jpg" false 1], true) :=
  ⟨by decide, c6_canonical_name_is_noop _ _ _ _ _ _ (by decide)⟩

/-- Claim C4: with a timestamp extracted and converted to `filedate`,
the rename target is built in the folder of the source with the original
extension lower-cased; the plain target is used when free, and
otherwise the suffixes `_1`, `_2`, ... are tried in increasing order
until the first free name `nameAt base ext k` (hypotheses `htaken` and
`hfree` say `k` is the first free counter).  In particular, when the
plain name and the `_1` name exist and the `_2` name is free, `k = 2`
and the file is renamed to the `_2` name. -/
theorem c4_first_free_target
    (fs : FS) (folder filename fullpath exifdate filedate : String)
    (tags : List (String × String)) (renameOk : String → String → Bool) (k : Nat)
    (hskip : output_pattern_match filename = false)
    (hscan : scanDateTags tags = some exifdate)
    (hdate : strptimeToFiledate exifdate = some filedate)
    (htaken : ∀ j, j < k →
      occupied fs (nameAt (os_join folder filedate)
        (lowerStr (splitext fullpath).2) j) = true)
    (hfree : occupied fs (nameAt (os_join folder filedate)
      (lowerStr (splitext fullpath).2) k) = false)
    (hren : renameOk fullpath (nameAt (os_join folder filedate)
      (lowerStr (splitext fullpath).2) k) = true)
    (hraw : findRawFile
      (fsRename fs fullpath (nameAt (os_join folder filedate)
        (lowerStr (splitext fullpath).2) k))
      (splitext fullpath).1 = none) :
    renameImgToExif filename folder fullpath tags renameOk fs
      = some (fsRename fs fullpath
          (nameAt (os_join folder filedate)
            (lowerStr (splitext fullpath).2) k), true) := by
  have htags : tags.isEmpty = false := by
    cases tags with
    | nil => simp [scanDateTags, lookupTag, date_tags] at hscan
    | cons a l => rfl
  have hcount := occupied_count_le fs (os_join folder filedate)
    (lowerStr (splitext fullpath).2) 0 k (fun j _ hj => htaken j hj)
  have hloop : collisionLoop fs (os_join folder filedate)
      (lowerStr (splitext fullpath).2) (fs.length + 1) 0
      (os_join folder filedate ++ lowerStr (splitext fullpath).2)
      = (k, nameAt (os_join folder filedate)
          (lowerStr (splitext fullpath).2) k) := by
    have h0 : os_join folder filedate ++ lowerStr (splitext fullpath).2
        = nameAt (os_join folder filedate) (lowerStr (splitext fullpath).2) 0 := by
      simp [nameAt]
    rw [h0]
    exact collisionLoop_spec fs (os_join folder filedate)
      (lowerStr (splitext fullpath).2) k (fs.length + 1) 0 (Nat.zero_le k)
      (by omega) (fun j _ hj => htaken j hj) hfree
  simp [renameImgToExif, hskip, htags, hscan, hdate, hloop, hren, hraw]

/-- Witness for C4: with the plain and `_1` names taken, the image is
renamed to the `_2` name. -/
theorem c4_witness :
    renameImgToExif "IMG_0001.JPG" "ph" "ph/IMG_0001.JPG"
      [("EXIF DateTimeOriginal", "2020:02:16 13:19:03")] (fun _ _ => true) fsC4
    = some (fsRename fsC4 "ph/IMG_0001.JPG"
        (nameAt (os_join "ph" "20200216_131903")
          (lowerStr (splitext "ph/IMG_0001.JPG").2) 2), true) :=
  c4_first_free_target fsC4 "ph" "IMG_0001.JPG" "ph/IMG_0001.JPG"
    "2020:02:16 13:19:03" "20200216_131903"
    [("EXIF DateTimeOriginal", "2020:02:16 13:19:03")] (fun _ _ => true) 2
    (by decide) (by decide) (by decide) (by decide) (by decide) (by decide)
    (by decide)

/-- Claim C5: after the image is successfully renamed using timestamp
`filedate` and collision suffix `k`, a raw sibling found in the same
folder by the probe of lines 131-137 is renamed to the same `filedate`
in the same folder, with its extension lower-cased, by a suffix search
resumed at the identical suffix `k` on the post-image-rename
filesystem: the raw target is the candidate name for the least free
counter `m` with `k ≤ m` (hypotheses `hrtaken` and `hrfree`), so the
raw file gets the identical suffix `k` when that exact name is free
(`m = k`), and otherwise the search continues upward from `k` for the
raw file alone while the image keeps `k`.  Second and third conjuncts,
the probe order of `possible_raw_extensions`: a case-insensitive ORF
hit is taken and RAW is never consulted, and RAW is consulted exactly
when the ORF probe misses. -/
theorem c5_raw_sibling_same_suffix :
    (∀ (fs fs1 : FS)
       (folder filename fullpath exifdate filedate raw_file base ext rext : String)
       (tags : List (String × String)) (renameOk : String → String → Bool)
       (k m : Nat),
       output_pattern_match filename = false →
       scanDateTags tags = some exifdate →
       strptimeToFiledate exifdate = some filedate →
       base = os_join folder filedate →
       ext = lowerStr (splitext fullpath).2 →
       rext = lowerStr (splitext raw_file).2 →
       (∀ j, j < k → occupied fs (nameAt base ext j) = true) →
       occupied fs (nameAt base ext k) = false →
       renameOk fullpath (nameAt base ext k) = true →
       fs1 = fsRename fs fullpath (nameAt base ext k) →
       findRawFile fs1 (splitext fullpath).1 = some raw_file →
       k ≤ m →
       (∀ j, k ≤ j → j < m → occupied fs1 (nameAt base rext j) = true) →
       occupied fs1 (nameAt base rext m) = false →
       renameOk raw_file (nameAt base rext m) = true →
       renameImgToExif filename folder fullpath tags renameOk fs
         = some (fsRename fs1 raw_file (nameAt base rext m), true))
    ∧ (∀ (fs : FS) (wo r : String),
       getfile_insensitive fs (wo ++ "." ++ "ORF") = some r →
       findRawFile fs wo = some r)
    ∧ (∀ (fs : FS) (wo : String),
       getfile_insensitive fs (wo ++ "." ++ "ORF") = none →
       findRawFile fs wo = getfile_insensitive fs (wo ++ "." ++ "RAW")) := by
  refine ⟨?_, ?_, ?_⟩
  · intro fs fs1 folder filename fullpath exifdate filedate raw_file base ext rext
      tags renameOk k m hskip hscan hdate hbase hext hrext htaken hfree hren hfs1
      hraw hkm hrtaken hrfree hrren
    subst hbase hext hrext hfs1
    have htags : tags.isEmpty = false := by
      cases tags with
      | nil => simp [scanDateTags, lookupTag, date_tags] at hscan
      | cons a l => rfl
    have hcount := occupied_count_le fs (os_join folder filedate)
      (lowerStr (splitext fullpath).2) 0 k (fun j _ hj => htaken j hj)
    have hloop : collisionLoop fs (os_join folder filedate)
        (lowerStr (splitext fullpath).2) (fs.length + 1) 0
        (os_join folder filedate ++ lowerStr (splitext fullpath).2)
        = (k, nameAt (os_join folder filedate)
            (lowerStr (splitext fullpath).2) k) := by
      have h0 : os_join folder filedate ++ lowerStr (splitext fullpath).2
          = nameAt (os_join folder filedate) (lowerStr (splitext fullpath).2) 0 := by
        simp [nameAt]
      rw [h0]
      exact collisionLoop_spec fs (os_join folder filedate)
        (lowerStr (splitext fullpath).2) k (fs.length + 1) 0 (Nat.zero_le k)
        (by omega) (fun j _ hj => htaken j hj) hfree
    have hcount2 := occupied_count_le
      (fsRename fs fullpath (nameAt (os_join folder filedate)
        (lowerStr (splitext fullpath).2) k))
      (os_join folder filedate) (lowerStr (splitext raw_file).2) k m hrtaken
    have hloop2 : collisionLoop
        (fsRename fs fullpath (nameAt (os_join folder filedate)
          (lowerStr (splitext fullpath).2) k))
        (os_join folder filedate) (lowerStr (splitext raw_file).2)
        ((fsRename fs fullpath (nameAt (os_join folder filedate)
          (lowerStr (splitext fullpath).2) k)).length + 1) k
        (nameAt (os_join folder filedate) (lowerStr (splitext raw_file).2) k)
        = (m, nameAt (os_join folder filedate)
            (lowerStr (splitext raw_file).2) m) :=
      collisionLoop_spec _ (os_join folder filedate)
        (lowerStr (splitext raw_file).2) m _ k hkm (by omega) hrtaken hrfree
    simp [renameImgToExif, hskip, htags, hscan, hdate, hloop, hren, hraw,
      hloop2, hrren]
  · intro fs wo r h
    simp [findRawFile, possible_raw_extensions, h]
  · intro fs wo h
    simp [findRawFile, possible_raw_extensions, h]

/-- Witness for C5 on two concrete configurations.  First: on `fsC5a`
the image gets suffix 2 and the raw sibling gets the identical suffix
2 even though the `_1` raw name is free.  Second: on `fsC5b` the
suffix-2 raw name is taken, so the raw file alone continues upward to
suffix 3 while the image keeps suffix 2. -/
theorem c5_witness :
    renameImgToExif "IMG_0001.JPG" "ph" "ph/IMG_0001.JPG" tagsStd
        (fun _ _ => true) fsC5a
      = some (fsRename
          (fsRename fsC5a "ph/IMG_0001.JPG" (nameAt "ph/20200216_131903" ".jpg" 2))
          "ph/IMG_0001.ORF" (nameAt "ph/20200216_131903" ".orf" 2), true)
    ∧ renameImgToExif "IMG_0001.JPG" "ph" "ph/IMG_0001.JPG" tagsStd
        (fun _ _ => true) fsC5b
      = some (fsRename
          (fsRename fsC5b "ph/IMG_0001.JPG" (nameAt "ph/20200216_131903" ".jpg" 2))
          "ph/IMG_0001.ORF" (nameAt "ph/20200216_131903" ".orf" 3), true) :=
  ⟨c5_raw_sibling_same_suffix.1 fsC5a
      (fsRename fsC5a "ph/IMG_0001.JPG" (nameAt "ph/20200216_131903" ".jpg" 2))
      "ph" "IMG_0001.JPG" "ph/IMG_0001.JPG" "2020:02:16 13:19:03"
      "20200216_131903" "ph/IMG_0001.ORF" "ph/20200216_131903" ".jpg" ".orf"
      tagsStd (fun _ _ => true) 2 2
      (by decide) (by decide) (by decide) (by decide) (by decide) (by decide)
      (by decide) (by decide) (by decide) rfl (by decide) (by decide)
      (by intro j h1 h2; omega) (by decide) (by decide),
   c5_raw_sibling_same_suffix.1 fsC5b
      (fsRename fsC5b "ph/IMG_0001.JPG" (nameAt "ph/20200216_131903" ".jpg" 2))
      "ph" "IMG_0001.JPG" "ph/IMG_0001.JPG" "2020:02:16 13:19:03"
      "20200216_131903" "ph/IMG_0001.ORF" "ph/20200216_131903" ".jpg" ".orf"
      tagsStd (fun _ _ => true) 2 3
      (by decide) (by decide) (by decide) (by decide) (by decide) (by decide)
      (by decide) (by decide) (by decide) rfl (by decide) (by decide)
      (by intro j h1 h2; interval_cases j; decide)
      (by decide) (by decide)⟩

/-- Claim C7: a failed rename is reported by a `False` return code,
which marks the candidate failed, and the run moves on to the next
candidate.  First conjunct: whenever processing a candidate returns
`False` with filesystem `fs2`, the driver loop records the failed
path and processes the remaining candidates from `fs2` — no
failure ends the loop.  Second conjunct: when the image rename itself
fails, the filesystem is unchanged and the candidate is marked failed.
Third conjunct: when the image rename succeeds and the raw-sibling
rename fails, the candidate is marked failed but the image rename is
not rolled back — the returned filesystem keeps the renamed image and
the untouched raw sibling. -/
theorem c7_failure_reported_run_continues :
    (∀ (tagsFor : String → List (String × String))
       (renameOk : String → String → Bool)
       (r : FileRec) (rest : List FileRec) (fs fs2 : FS),
       renameImgToExif r.filename r.folder r.fullpath (tagsFor r.fullpath)
           renameOk fs = some (fs2, false) →
       processRun tagsFor renameOk (r :: rest) fs
         = Option.map (fun pr => (pr.1, r.fullpath :: pr.2))
             (processRun tagsFor renameOk rest fs2))
    ∧ renameImgToExif "IMG_0001.JPG" "ph" "ph/IMG_0001.JPG" tagsStd
        (fun _ _ => false) fsC7 = some (fsC7, false)
    ∧ renameImgToExif "IMG_0001.JPG" "ph" "ph/IMG_0001.JPG" tagsStd
        (fun src _ => src == "ph/IMG_0001.JPG") fsC7
      = some ([Entry.mk "ph/20200216_131903.jpg" false 1,
               Entry.mk "ph/IMG_0001.ORF" false 2], false) := by
  refine ⟨?_, by decide, by decide⟩
  intro tagsFor renameOk r rest fs fs2 hres
  conv_lhs => rw [processRun]
  rw [hres]
  rcases h2 : processRun tagsFor renameOk rest fs2 with _ | ⟨a, p⟩ <;> simp [h2]

/-- Witness for C7: the continuation conjunct applied to a concrete
failing candidate followed by the empty tail. -/
theorem c7_witness :
    processRun (fun _ => tagsStd) (fun _ _ => false)
        [FileRec.mk "IMG_0001.JPG" "ph" "ph/IMG_0001.JPG"] fsC7
      = some (fsC7, ["ph/IMG_0001.JPG"]) := by
  rw [c7_failure_reported_run_continues.1 (fun _ => tagsStd) (fun _ _ => false)
    (FileRec.mk "IMG_0001.JPG" "ph" "ph/IMG_0001.JPG") [] fsC7 fsC7 (by decide)]
  decide

/-- Claim C9: the only filesystem mutations a run performs are in-place
renames: the runs that return keep the same number of entries, the same
contents (`fid`), and the same directory flags, entry by entry — only
paths change.  No file is copied, no entry is created or deleted, and
no directory appears. -/
theorem c9_renames_only (tagsFor : String → List (String × String))
    (renameOk : String → String → Bool) (records : List FileRec)
    (fs fs' : FS) (pending : List String)
    (h : processRun tagsFor renameOk records fs = some (fs', pending)) :
    fs'.length = fs.length
    ∧ fs'.map Entry.fid = fs.map Entry.fid
    ∧ fs'.map Entry.isDir = fs.map Entry.isDir := by
  have hf := processRun_frame tagsFor renameOk records fs fs' pending h
  refine ⟨?_, hf.1, hf.2⟩
  have hl := congrArg List.length hf.1
  simpa using hl

/-- Witness for C9: the frame property at a concrete successful run. -/
theorem c9_witness :
    ([Entry.mk "ph/20200216_131903.jpg" false 1,
      Entry.mk "ph/20200216_131903.orf" false 2] : FS).length = fsC7.length
    ∧ ([Entry.mk "ph/20200216_131903.jpg" false 1,
        Entry.mk "ph/20200216_131903.orf" false 2] : FS).map Entry.fid
        = fsC7.map Entry.fid
    ∧ ([Entry.mk "ph/20200216_131903.jpg" false 1,
        Entry.mk "ph/20200216_131903.orf" false 2] : FS).map Entry.isDir
        = fsC7.map Entry.isDir :=
  c9_renames_only (fun _ => tagsStd) (fun _ _ => true)
    [FileRec.mk "IMG_0001.JPG" "ph" "ph/IMG_0001.JPG"] fsC7
    [Entry.mk "ph/20200216_131903.jpg" false 1,
     Entry.mk "ph/20200216_131903.orf" false 2] [] (by decide)

/-- Claim C1 is refuted by the code: in the loop of lines 92-101 the
value of every present tag is assigned in turn, and the
`exifdate_pattern` test of line 100 is followed only by `continue`,
which is the last statement of the loop body anyway, so a present tag
with a non-matching value is NOT passed over in favour of an earlier
matching one.  Here the earlier `EXIF DateTimeOriginal` value matches
the pattern and the later `Image DateTime` value does not, yet the
scan returns the later value, and the file is renamed after it
(`strptime` still parses it because `%m`/`%d` accept single digits)
instead of after the matching earlier value. -/
theorem c1_last_present_tag_wins_even_unmatched :
    exifdate_pattern_match "2020:02:16 13:19:03" = true
    ∧ exifdate_pattern_match "2021:1:1 00:00:00" = false
    ∧ scanDateTags tagsC1 = some "2021:1:1 00:00:00"
    ∧ renameImgToExif "a.jpg" "ph" "ph/a.jpg" tagsC1 (fun _ _ => true)
        [Entry.mk "ph/a.jpg" false 1]
      = some ([Entry.mk "ph/20210101_000000.jpg" false 1], true) := by
  refine ⟨by decide, by decide, by decide, by decide⟩

/-- Claim C2 is refuted by the code on one of its cases.  First two
conjuncts: the benign cases hold — a file with no metadata at all, and
a file none of whose tags is in `date_tags`, are left untouched and
reported failed (return code `False`).  Remaining conjuncts: a file
whose only date tag carries a value that does not match
`exifdate_pattern` does NOT get the report-and-continue treatment:
`foundKey` is set and the unmatched value reaches `strptime` at line
110.  When `strptime` cannot parse it either, the uncaught
`ValueError` (modelled as `none`) terminates the whole run, so the
following candidate is never processed; and when `strptime` can parse
it (single-digit month and day), the file is renamed even though no
tag value matched the pattern. -/
theorem c2_invalid_tag_value_aborts_run :
    renameImgToExif "d.jpg" "ph" "ph/d.jpg" [] (fun _ _ => true)
        [Entry.mk "ph/d.jpg" false 1]
      = some ([Entry.mk "ph/d.jpg" false 1], false)
    ∧ renameImgToExif "e.jpg" "ph" "ph/e.jpg" [("Image Model", "E-M10")]
        (fun _ _ => true) [Entry.mk "ph/e.jpg" false 1]
      = some ([Entry.mk "ph/e.jpg" false 1], false)
    ∧ exifdate_pattern_match "hello" = false
    ∧ renameImgToExif "b.jpg" "ph" "ph/b.jpg" [("Image DateTime", "hello")]
        (fun _ _ => true) [Entry.mk "ph/b.jpg" false 1] = none
    ∧ processRun (fun _ => [("Image DateTime", "hello")]) (fun _ _ => true)
        [FileRec.mk "b.jpg" "ph" "ph/b.jpg", FileRec.mk "c.jpg" "ph" "ph/c.jpg"]
        [Entry.mk "ph/b.jpg" false 1, Entry.mk "ph/c.jpg" false 2] = none
    ∧ exifdate_pattern_match "2021:1:1 00:00:00" = false
    ∧ renameImgToExif "f.jpg" "ph" "ph/f.jpg" [("Image DateTime", "2021:1:1 00:00:00")]
        (fun _ _ => true) [Entry.mk "ph/f.jpg" false 1]
      = some ([Entry.mk "ph/20210101_000000.jpg" false 1], true) := by
  refine ⟨by decide, by decide, by decide, by decide, by decide, by decide, by decide⟩

/-- Counterexample to claim C3: invoked with an argument that is
neither an existing file nor an existing directory, `main` falls
through both branches with `ok` still false and runs
`sys.exit(0)` at line 236 — the exit status is zero, not non-zero as
claimed. -/
theorem c3_counterexample :
    mainResolve true "no_such_path" ArgKind.neither true [] = Except.error 0 := rfl

/-- Claim C3 as amended: when the argument is neither an existing file
nor an existing directory, the run aborts before any file is processed
— but with exit status zero, whatever the argument string, the
confirmation answer and the directory contents. -/
theorem c3_neither_aborts_before_processing (param : String)
    (confirmYes : Bool) (walkFiles : List FileRec) :
    mainResolve true param ArgKind.neither confirmYes walkFiles
      = Except.error 0 := rfl

/-- Claim C8: invoked on a single existing file whose name does not
match the image-extension pattern, the program exits with status 2
before any rename (no file list is ever produced), while a missing
argument exits with status 1 — a distinct non-zero status. -/
theorem c8_nonimage_file_distinct_abort (param : String) (confirmYes : Bool)
    (walkFiles : List FileRec)
    (h : image_pattern_match param = false) :
    mainResolve true param ArgKind.argFile confirmYes walkFiles = Except.error 2
    ∧ mainResolve false param ArgKind.argFile confirmYes walkFiles = Except.error 1
    ∧ (2 : Nat) ≠ 0 ∧ (2 : Nat) ≠ 1 := by
  refine ⟨by simp [mainResolve, h], rfl, by decide, by decide⟩

/-- Witness for C8 at a plain text filename. -/
theorem c8_witness :
    mainResolve true "notes.txt" ArgKind.argFile true [] = Except.error 2
    ∧ mainResolve false "notes.txt" ArgKind.argFile true [] = Except.error 1
    ∧ (2 : Nat) ≠ 0 ∧ (2 : Nat) ≠ 1 :=
  c8_nonimage_file_distinct_abort "notes.txt" true [] (by decide)

/-- Claim C10: the already-canonical skip applies only to names with no
collision suffix.  First conjunct: for every name of the shape
`YYYYMMDD_HHMMSS_N.ext` — eight digits (in fact any eight characters),
underscore, six, underscore, the decimal digits of any `N`, dot, any
extension — the skip pattern does not match, whether or not the name
carries a trailing newline.  Second conjunct: such a file is therefore
processed again on a later run and renamed a second time. -/
theorem c10_suffixed_names_reprocessed
    (a b : List Char) (n : Nat) (ext : List Char)
    (ha : a.length = 8) (hb : b.length = 6) :
    output_pattern_match
        ⟨a ++ ('_' :: (b ++ ('_' :: ((natStr n).data ++ ('.' :: ext)))))⟩ = false
    ∧ renameImgToExif "20200216_131903_1.jpg" "ph" "ph/20200216_131903_1.jpg"
        tagsStd (fun _ _ => true) [Entry.mk "ph/20200216_131903_1.jpg" false 1]
      = some ([Entry.mk "ph/20200216_131903.jpg" false 1], true) := by
  constructor
  · unfold output_pattern_match dollarMatch
    have h1 : output_core
        (a ++ ('_' :: (b ++ ('_' :: ((natStr n).data ++ ('.' :: ext)))))) = false :=
      output_core_suffixed a b _ ha hb
    have h2 : output_core
        ((a ++ ('_' :: (b ++ ('_' :: ((natStr n).data ++ ('.' :: ext)))))).dropLast)
        = false := by
      have hsh : a ++ ('_' :: (b ++ ('_' :: ((natStr n).data ++ ('.' :: ext)))))
          = (a ++ ('_' :: (b ++ ['_']))) ++ ((natStr n).data ++ ('.' :: ext)) := by
        simp [List.append_assoc]
      rw [hsh, List.dropLast_append]
      have hne : ((natStr n).data ++ ('.' :: ext)).isEmpty = false := by
        simp [List.isEmpty_iff]
      rw [hne]
      simp only [Bool.false_eq_true, if_false]
      have hsh2 : (a ++ ('_' :: (b ++ ['_'])))
            ++ ((natStr n).data ++ ('.' :: ext)).dropLast
          = a ++ ('_' :: (b ++ ('_' :: (((natStr n).data ++ ('.' :: ext)).dropLast)))) := by
        simp [List.append_assoc]
      rw [hsh2]
      exact output_core_suffixed a b _ ha hb
    rw [h1, h2]
    simp
  · decide

/-- Witness for C10 at the concrete name `20200216_131903_1.jpg`. -/
theorem c10_witness :
    output_pattern_match
        ⟨"20200216".data ++ ('_' :: ("131903".data
          ++ ('_' :: ((natStr 1).data ++ ('.' :: "jpg".data)))))⟩ = false
    ∧ renameImgToExif "20200216_131903_1.jpg" "ph" "ph/20200216_131903_1.jpg"
        tagsStd (fun _ _ => true) [Entry.mk "ph/20200216_131903_1.jpg" false 1]
      = some ([Entry.mk "ph/20200216_131903.jpg" false 1], true) :=
  c10_suffixed_names_reprocessed "20200216".data "131903".data 1 "jpg".data
    (by decide) (by decide)

